import Mathlib

/-!
Shallow embedding of torch/utils/data/_utils/fetch.py: the three dataset
fetchers (`_IterableDatasetFetcher`, `_MapDatasetFetcher`,
`_AsyncMapDatasetFetcher`) and theorems about their fetch behaviour.

Conventions of the embedding:
* `StopIteration` is the `FetchSignal.exhausted` signal; every other exception
  raised by the dataset is `FetchSignal.src e` with `e` drawn from an abstract
  error type `ε`.
* the one-shot iterator `self.dataset_iter` is the list of productions it has
  left; an `Except.error e` production models a call to `next` that raises a
  non-StopIteration exception `e`, and the empty list models an iterator whose
  next `next` call raises `StopIteration`.
* fetchers instrumented for the claims also return how they interacted with
  the dataset (number of `next` calls, or the list of retrieval calls issued).
* the thread schedule of the concurrent fetcher is abstracted as the order in
  which `(index, result)` pairs entered `result_queue`; `ValidCompletion`
  admits every permutation of the successfully retrieved pairs, which is the
  set of outcomes reachable by some worker interleaving.
-/

namespace Fetch

variable {ε α β γ : Type}

/-- Signal raised by a fetch call: `exhausted` models a `StopIteration` raised
by the fetcher or the iterator, `src e` models any other exception `e` raised
by the dataset while producing a sample. -/
inductive FetchSignal (ε : Type) : Type
  | exhausted : FetchSignal ε
  | src : ε → FetchSignal ε

/-- State of `_IterableDatasetFetcher`: the remaining productions of the
one-shot iterator `self.dataset_iter`, and the sticky `self.ended` flag. -/
structure IterFetcher (ε α : Type) : Type where
  dataset_iter : List (Except ε α)
  ended : Bool

/-- Outcome of the pulling loop `for _ in possibly_batched_index` in
`_IterableDatasetFetcher.fetch`. In every constructor the trailing `Nat`
counts the calls made to `next(self.dataset_iter)`, i.e. the interactions with
the cursor of the source. `ok` pulled every requested item and keeps the rest
of the iterator; `stopped` hit `StopIteration` (the iterator is spent and the
break sets `self.ended`); `failed` hit a non-StopIteration exception, which
discards the items pulled so far and propagates. -/
inductive PullOut (ε α : Type) : Type
  | ok : List α → List (Except ε α) → Nat → PullOut ε α
  | stopped : List α → Nat → PullOut ε α
  | failed : ε → List (Except ε α) → Nat → PullOut ε α

/-- Pull up to `n` successive items from the iterator with `next`, as the loop
body of `_IterableDatasetFetcher.fetch` does under `auto_collation`. -/
def pull : Nat → List (Except ε α) → PullOut ε α
  | 0, it => .ok [] it 0
  | _ + 1, [] => .stopped [] 1
  | _ + 1, .error e :: rest => .failed e rest 1
  | n + 1, .ok a :: rest =>
    match pull n rest with
    | .ok d r c => .ok (a :: d) r (c + 1)
    | .stopped d c => .stopped (a :: d) (c + 1)
    | .failed e r c => .failed e r (c + 1)

/-- Translation of `_IterableDatasetFetcher.fetch`. `collate_fn` is the
collator applied to the pulled list of samples in the `auto_collation` branch;
`collate_one` is the collator applied to the single sample in the non-batched
branch (in the Python source both are the dynamically typed `self.collate_fn`).
Returns the outcome of the call, the fetcher state after the call, and the
number of `next` calls made on the cursor during the call. -/
def IterFetcher.fetch (s : IterFetcher ε α) (auto_collation drop_last : Bool)
    (collate_fn : List α → β) (collate_one : α → β)
    (possibly_batched_index : List Nat) :
    Except (FetchSignal ε) β × IterFetcher ε α × Nat :=
  if s.ended then (.error .exhausted, s, 0)
  else if auto_collation then
    match pull possibly_batched_index.length s.dataset_iter with
    | .failed e rest c => (.error (.src e), ⟨rest, s.ended⟩, c)
    | .ok data rest c =>
      if data.length = 0 ∨ (drop_last ∧ data.length < possibly_batched_index.length) then
        (.error .exhausted, ⟨rest, s.ended⟩, c)
      else
        (.ok (collate_fn data), ⟨rest, s.ended⟩, c)
    | .stopped data c =>
      if data.length = 0 ∨ (drop_last ∧ data.length < possibly_batched_index.length) then
        (.error .exhausted, ⟨[], true⟩, c)
      else
        (.ok (collate_fn data), ⟨[], true⟩, c)
  else
    match s.dataset_iter with
    | [] => (.error .exhausted, s, 1)
    | .error e :: rest => (.error (.src e), ⟨rest, s.ended⟩, 1)
    | .ok a :: rest => (.ok (collate_one a), ⟨rest, s.ended⟩, 1)

/-- A map-style dataset as `_MapDatasetFetcher.fetch` uses it: `getitem` is
`__getitem__` applied to one integer index, `getitem_composite` is
`__getitem__` applied to the whole batched index object (the branch taken when
`auto_collation` is off), and `getitems` is the optional bulk `__getitems__`
method (`none` when the attribute is absent or falsy). -/
structure MapDataset (ε α : Type) : Type where
  getitem : Nat → Except ε α
  getitems : Option (List Nat → Except ε (List α))
  getitem_composite : List Nat → Except ε α

/-- One retrieval call issued to a map-style dataset. -/
inductive DSCall : Type
  | single : Nat → DSCall
  | bulk : List Nat → DSCall
  | composite : List Nat → DSCall

/-- The list comprehension `[self.dataset[idx] for idx in
possibly_batched_index]`: retrieves positions left to right, recording one
`single` call per attempted position, and the first error raised propagates. -/
def fetch_each (getitem : Nat → Except ε α) :
    List Nat → Except ε (List α) × List DSCall
  | [] => (.ok [], [])
  | i :: rest =>
    match getitem i with
    | .error e => (.error e, [.single i])
    | .ok a =>
      let p := fetch_each getitem rest
      (p.1.map fun d => a :: d, .single i :: p.2)

/-- Translation of `_MapDatasetFetcher.fetch`, instrumented with the list of
retrieval calls issued to the dataset. -/
def MapDataset.fetch (d : MapDataset ε α) (auto_collation : Bool)
    (collate_fn : List α → β) (collate_one : α → β)
    (possibly_batched_index : List Nat) : Except ε β × List DSCall :=
  if auto_collation then
    match d.getitems with
    | some g =>
      ((g possibly_batched_index).map collate_fn, [.bulk possibly_batched_index])
    | none =>
      let p := fetch_each d.getitem possibly_batched_index
      (p.1.map collate_fn, p.2)
  else
    ((d.getitem_composite possibly_batched_index).map collate_one,
      [.composite possibly_batched_index])

/-- Contents of the `result_queue` filled by `_AsyncMapDatasetFetcher.worker`,
listed here in task-queue order (the order of `batch_indices`): a position `i`
for which `self.dataset.__getitem__(i)` succeeds with sample `a` contributes
the pair `(i, a)`; a position whose retrieval raises is caught by the worker,
logged, and contributes nothing. The retrieval outcome is `getitem i`: `some a`
for success, `none` for a raised exception. -/
def asyncCollect (getitem : Nat → Option α) (batch_indices : List Nat) :
    List (Nat × α) :=
  batch_indices.filterMap fun i => (getitem i).map fun a => (i, a)

/-- A possible drained content of `result_queue` after all workers were
awaited: the pairs of the successful positions, in an order determined by the
worker interleaving, hence any permutation of `asyncCollect`. -/
def ValidCompletion (getitem : Nat → Option α) (batch_indices : List Nat)
    (q : List (Nat × α)) : Prop :=
  q.Perm (asyncCollect getitem batch_indices)

/-- The comparison underlying `result_list.sort(key=lambda v: v[0])`. -/
def keyLe (a b : Nat × α) : Bool := a.1 ≤ b.1

/-- Translation of the tail of `_AsyncMapDatasetFetcher.initiate_fetch_tasks`
once `asyncio.gather` has returned: drain `result_queue` into `result_list`,
sort it in place by index ascending (the stable `list.sort` of Python, modelled
by the stable `List.mergeSort`), then either apply `collate_fn` and take
element `[1]` of its two-element return value, or, when `collate_fn` is `None`,
return the sorted pair list itself. -/
def initiate_fetch_tasks (collate_fn : Option (List (Nat × α) → γ × β))
    (result_queue : List (Nat × α)) : β ⊕ List (Nat × α) :=
  let result_list := result_queue.mergeSort keyLe
  match collate_fn with
  | some c => .inl (c result_list).2
  | none => .inr result_list

/-- Run of `_AsyncMapDatasetFetcher` constructed with `num_fetch_workers = 1`:
a lone worker drains the task queue in FIFO order and runs each retrieval to
completion before taking the next position, so the pairs enter `result_queue`
exactly in batch order and the run is deterministic. -/
def async_fetch_one_worker (getitem : Nat → Option α)
    (collate_fn : Option (List (Nat × α) → γ × β)) (batch_indices : List Nat) :
    β ⊕ List (Nat × α) :=
  initiate_fetch_tasks collate_fn (asyncCollect getitem batch_indices)

/-- Shape of the default collate of the repository applied to a list of
`(index, sample)` pairs: a two-element structure collecting the indices in its
first element and the samples, in the same order, in its second. -/
def pairCollate : List (Nat × α) → List Nat × List α :=
  fun l => (l.map Prod.fst, l.map Prod.snd)

/-! Helper lemmas shared by the claim theorems. -/

/-- Pulling from a source that answers every request succeeds with exactly the
requested number of items. -/
theorem pull_ok_length {ε α : Type} :
    ∀ (n : Nat) (it rest : List (Except ε α)) (d : List α) (c : Nat),
      pull n it = PullOut.ok d rest c → d.length = n := by
  intro n
  induction n with
  | zero =>
    intro it rest d c h
    cases it <;> simp [pull] at h <;> simp [← h.1]
  | succ m ih =>
    intro it rest d c h
    match it with
    | [] => simp [pull] at h
    | .error e :: t => simp [pull] at h
    | .ok a :: t =>
      rw [pull] at h
      cases hp : pull m t with
      | ok d0 r0 c0 =>
        rw [hp] at h
        simp only [PullOut.ok.injEq] at h
        rw [← h.1]
        simp [ih t r0 d0 c0 hp]
      | stopped d0 c0 => rw [hp] at h; simp at h
      | failed e0 r0 c0 => rw [hp] at h; simp at h

/-- Pulling from a source whose productions begin with `okpre.length` good
items followed by a raising `next` reaches the error whenever more than
`okpre.length` items are requested; the error is propagated together with the
count of `next` calls made. -/
theorem pull_reaches_error {ε α : Type} (e : ε) (rest : List (Except ε α)) :
    ∀ (okpre : List α) (n : Nat), okpre.length < n →
      pull n (okpre.map Except.ok ++ Except.error e :: rest)
        = PullOut.failed e rest (okpre.length + 1) := by
  intro okpre
  induction okpre with
  | nil =>
    intro n hn
    match n, hn with
    | m + 1, _ => rfl
  | cons a t ih =>
    intro n hn
    match n, hn with
    | m + 1, hn =>
      have ht : t.length < m := by simpa using hn
      simp [pull, ih m ht]

/-- Per-position retrieval over a source that answers every request: one
`single` call per position, in list order, and the samples come back in the
same order. -/
theorem fetch_each_ok {ε α : Type} (g : Nat → α) (l : List Nat) :
    fetch_each (fun i => (Except.ok (g i) : Except ε α)) l
      = (.ok (l.map g), l.map DSCall.single) := by
  induction l with
  | nil => rfl
  | cons i rest ih => simp [fetch_each, ih, Except.map]

/-- Per-position retrieval stops at the first failing position: the calls are
the `single` calls for the good positions followed by the failing one, and the
error propagates. -/
theorem fetch_each_reaches_error {ε α : Type} (gi : Nat → Except ε α)
    (g : Nat → α) (e : ε) (j : Nat) :
    ∀ (pre post : List Nat), (∀ i ∈ pre, gi i = .ok (g i)) → gi j = .error e →
      fetch_each gi (pre ++ j :: post)
        = (.error e, pre.map DSCall.single ++ [DSCall.single j]) := by
  intro pre
  induction pre with
  | nil =>
    intro post _ hj
    simp [fetch_each, hj]
  | cons i t ih =>
    intro post hpre hj
    have hi : gi i = .ok (g i) := hpre i (by simp)
    simp [fetch_each, hi, ih post (fun x hx => hpre x (by simp [hx])) hj,
      Except.map]

/-- A list permuting a two-element list is one of its two arrangements. -/
theorem perm_two {α : Type} {x y : α} {l : List α} (h : l.Perm [x, y]) :
    l = [x, y] ∨ l = [y, x] := by
  have hlen := h.length_eq
  match l, h, hlen with
  | [a, b], h, _ =>
    have ha : a ∈ [x, y] := h.mem_iff.mp (by simp)
    have ha2 : a = x ∨ a = y := by simpa using ha
    rcases ha2 with rfl | rfl
    · left
      have hb := List.perm_singleton.mp h.cons_inv
      simp [hb]
    · right
      have h2 : [a, b].Perm [a, x] := h.trans (List.Perm.swap a x [])
      have hb := List.perm_singleton.mp h2.cons_inv
      simp [hb]

/-- The sort key comparison is transitive. -/
theorem keyLe_trans {α : Type} (a b c : Nat × α) (hab : keyLe a b = true)
    (hbc : keyLe b c = true) : keyLe a c = true := by
  simp only [keyLe, decide_eq_true_eq] at *
  exact le_trans hab hbc

/-- The sort key comparison is total. -/
theorem keyLe_total {α : Type} (a b : Nat × α) :
    (keyLe a b || keyLe b a) = true := by
  simp only [keyLe, Bool.or_eq_true, decide_eq_true_eq]
  exact Nat.le_total a.1 b.1

/-- Claim C6: for the Sequential Fetcher with batching enabled and drop-last
enabled, a source holding exactly 3 items queried with a position batch of
length 4 signals exhaustion on that very call — the 3 partial samples are
discarded, never surfaced — and every subsequent fetch call, in any
configuration, signals exhaustion as well, so zero successful batches are
produced. -/
theorem c6_drop_last_short {ε α β : Type} (a b c : α)
    (collate_fn : List α → β) (collate_one : α → β) (idx : List Nat)
    (h : idx.length = 4) :
    IterFetcher.fetch (⟨[.ok a, .ok b, .ok c], false⟩ : IterFetcher ε α)
        true true collate_fn collate_one idx
      = (.error .exhausted, ⟨[], true⟩, 4) ∧
    ∀ (auto drop : Bool) (cf : List α → β) (co : α → β) (idx2 : List Nat),
      IterFetcher.fetch (⟨[], true⟩ : IterFetcher ε α) auto drop cf co idx2
        = (.error .exhausted, ⟨[], true⟩, 0) := by
  constructor
  · simp only [IterFetcher.fetch]
    rw [h]
    rfl
  · intro auto drop cf co idx2
    rfl

/-- Witness for C6, at source `[0, 1, 2]` and batch `[9, 9, 9, 9]`. -/
theorem c6_drop_last_short_witness :
    (([9, 9, 9, 9] : List Nat).length = 4) ∧
    (IterFetcher.fetch
        (⟨[Except.ok 0, Except.ok 1, Except.ok 2], false⟩ : IterFetcher Unit Nat)
        true true id (fun a => [a]) [9, 9, 9, 9]
      = (.error .exhausted, ⟨[], true⟩, 4) ∧
    ∀ (auto drop : Bool) (cf : List Nat → List Nat) (co : Nat → List Nat)
        (idx2 : List Nat),
      IterFetcher.fetch (⟨[], true⟩ : IterFetcher Unit Nat) auto drop cf co idx2
        = (.error .exhausted, ⟨[], true⟩, 0)) :=
  ⟨rfl, c6_drop_last_short 0 1 2 id (fun a => [a]) [9, 9, 9, 9] rfl⟩

/-- Claim C7: for the Sequential Fetcher with batching enabled and drop-last
disabled, a source holding exactly 3 items queried with a position batch of
length 4 returns one successful batch, the collation of the 3-element sample
list, and the next fetch call (in any configuration) signals exhaustion. -/
theorem c7_keep_short {ε α β : Type} (a b c : α)
    (collate_fn : List α → β) (collate_one : α → β) (idx : List Nat)
    (h : idx.length = 4) :
    IterFetcher.fetch (⟨[.ok a, .ok b, .ok c], false⟩ : IterFetcher ε α)
        true false collate_fn collate_one idx
      = (.ok (collate_fn [a, b, c]), ⟨[], true⟩, 4) ∧
    ∀ (auto drop : Bool) (cf : List α → β) (co : α → β) (idx2 : List Nat),
      IterFetcher.fetch (⟨[], true⟩ : IterFetcher ε α) auto drop cf co idx2
        = (.error .exhausted, ⟨[], true⟩, 0) := by
  constructor
  · simp only [IterFetcher.fetch]
    rw [h]
    rfl
  · intro auto drop cf co idx2
    rfl

/-- Witness for C7, at source `[0, 1, 2]` and batch `[9, 9, 9, 9]`. -/
theorem c7_keep_short_witness :
    (([9, 9, 9, 9] : List Nat).length = 4) ∧
    (IterFetcher.fetch
        (⟨[Except.ok 0, Except.ok 1, Except.ok 2], false⟩ : IterFetcher Unit Nat)
        true false id (fun a => [a]) [9, 9, 9, 9]
      = (.ok (id [0, 1, 2]), ⟨[], true⟩, 4) ∧
    ∀ (auto drop : Bool) (cf : List Nat → List Nat) (co : Nat → List Nat)
        (idx2 : List Nat),
      IterFetcher.fetch (⟨[], true⟩ : IterFetcher Unit Nat) auto drop cf co idx2
        = (.error .exhausted, ⟨[], true⟩, 0)) :=
  ⟨rfl, c7_keep_short 0 1 2 id (fun a => [a]) [9, 9, 9, 9] rfl⟩

/-- Claim C8: the Indexed Fetcher with batching enabled issues, when the
dataset exposes bulk retrieval, exactly one bulk call carrying the full
position list in its original order; otherwise one single-position call per
position, in list order, and the assembled pre-collation result has the sample
of position `idx[i]` at index `i`. -/
theorem c8_map_fetch_calls {ε α β : Type} (g : List Nat → Except ε (List α))
    (gi : Nat → Except ε α) (gc gc2 : List Nat → Except ε α) (sg : Nat → α)
    (collate_fn : List α → β) (collate_one : α → β) (idx : List Nat) :
    (MapDataset.fetch (⟨gi, some g, gc⟩ : MapDataset ε α) true collate_fn
        collate_one idx = ((g idx).map collate_fn, [.bulk idx])) ∧
    (MapDataset.fetch (⟨fun i => .ok (sg i), none, gc2⟩ : MapDataset ε α) true
        collate_fn collate_one idx
      = (.ok (collate_fn (idx.map sg)), idx.map DSCall.single)) := by
  constructor
  · rfl
  · simp [MapDataset.fetch, fetch_each_ok, Except.map]

/-- Claim C10: with batching enabled, the Sequential Fetcher reads only the
length of the position batch, never its values: two equal-length batches
presented to the same fetcher state under the same configuration produce the
same outcome, the same successor state, and the same cursor interactions. -/
theorem c10_length_only {ε α β : Type} (s : IterFetcher ε α) (drop_last : Bool)
    (collate_fn : List α → β) (collate_one : α → β) (idx1 idx2 : List Nat)
    (h : idx1.length = idx2.length) :
    IterFetcher.fetch s true drop_last collate_fn collate_one idx1
      = IterFetcher.fetch s true drop_last collate_fn collate_one idx2 := by
  simp only [IterFetcher.fetch, h]

/-- Witness for C10, at batches `[3, 4]` and `[9, 9]`. -/
theorem c10_length_only_witness :
    (([3, 4] : List Nat).length = ([9, 9] : List Nat).length) ∧
    IterFetcher.fetch (⟨[Except.ok 0], false⟩ : IterFetcher Unit Nat) true false
        id (fun a => [a]) [3, 4]
      = IterFetcher.fetch (⟨[Except.ok 0], false⟩ : IterFetcher Unit Nat) true
        false id (fun a => [a]) [9, 9] :=
  ⟨rfl, c10_length_only ⟨[Except.ok 0], false⟩ false id (fun a => [a])
    [3, 4] [9, 9] rfl⟩

/-- Claim C1 is violated by the concurrent fetcher: at batch `[5, 1, 3]` with
identity samples, the completion order `1, 5, 3` is a reachable worker
outcome, yet the fetch returns the samples sorted by position ascending,
`[1, 3, 5]`, not in batch order `[5, 1, 3]` as the claim, and the docstring of
`initiate_fetch_tasks` itself, require. -/
theorem c1_async_order_bug :
    ValidCompletion (fun i => some i) [5, 1, 3] [(1, 1), (5, 5), (3, 3)] ∧
    initiate_fetch_tasks (some pairCollate) [(1, 1), (5, 5), (3, 3)]
      = Sum.inl [1, 3, 5] ∧
    ([1, 3, 5] : List Nat) ≠ [5, 1, 3] := by
  refine ⟨by unfold ValidCompletion; decide, ?_, by decide⟩
  simp [initiate_fetch_tasks, pairCollate, keyLe, List.mergeSort]

/-- Retrieval map where position 3 raises and every other position returns
itself as its sample. -/
def getitemFail3 : Nat → Option Nat := fun i => if i = 3 then none else some i

/-- Claim C2: for the concurrent fetcher on batch `[5, 1, 3]` where retrieval
of position 3 raises and positions 5 and 1 succeed, every reachable completion
order yields, with no error reaching the caller, a two-element result holding
exactly the samples of the successful positions 5 and 1: the failed position
never enters the completion queue, and the other positions are still
retrieved. -/
theorem c2_single_failure_omitted (result_queue : List (Nat × Nat))
    (h : ValidCompletion getitemFail3 [5, 1, 3] result_queue) :
    ∃ l : List Nat,
      initiate_fetch_tasks (some pairCollate) result_queue = Sum.inl l ∧
      l.length = 2 ∧ l.Perm [5, 1] := by
  have hc : asyncCollect getitemFail3 [5, 1, 3] = [(5, 5), (1, 1)] := rfl
  unfold ValidCompletion at h
  rw [hc] at h
  rcases perm_two h with rfl | rfl
  · exact ⟨[1, 5],
      by simp [initiate_fetch_tasks, pairCollate, keyLe, List.mergeSort],
      rfl, by decide⟩
  · exact ⟨[1, 5],
      by simp [initiate_fetch_tasks, pairCollate, keyLe, List.mergeSort],
      rfl, by decide⟩

/-- Witness for C2, at the completion order that lists position 1 first. -/
theorem c2_single_failure_omitted_witness :
    ∃ l : List Nat,
      initiate_fetch_tasks (some pairCollate) [(1, 1), (5, 5)] = Sum.inl l ∧
      l.length = 2 ∧ l.Perm [5, 1] :=
  c2_single_failure_omitted [(1, 1), (5, 5)]
    (by unfold ValidCompletion; decide)

/-- Claim C5: on every run the concurrent fetcher hands the collator the list
of `(position, sample)` pairs of the retrieved positions — a permutation of
the completion-queue content, sorted by position — and returns the second
element of the two-element return value of the collator as the fetch
result. -/
theorem c5_pair_collate {α γ β : Type} (getitem : Nat → Option α)
    (collate : List (Nat × α) → γ × β) (batch : List Nat)
    (q : List (Nat × α)) (h : ValidCompletion getitem batch q) :
    ∃ pairs : List (Nat × α),
      pairs.Perm (asyncCollect getitem batch) ∧
      pairs.Pairwise (fun x y => x.1 ≤ y.1) ∧
      initiate_fetch_tasks (some collate) q = Sum.inl (collate pairs).2 := by
  refine ⟨q.mergeSort keyLe, (List.mergeSort_perm q keyLe).trans h, ?_, rfl⟩
  have hp := @List.sorted_mergeSort (Nat × α) keyLe keyLe_trans keyLe_total q
  exact hp.imp fun hxy => by simpa [keyLe] using hxy

/-- Witness for C5, at batch `[1, 2]` with identity samples. -/
theorem c5_pair_collate_witness :
    ∃ pairs : List (Nat × Nat),
      pairs.Perm (asyncCollect (fun i => some i) [1, 2]) ∧
      pairs.Pairwise (fun x y => x.1 ≤ y.1) ∧
      initiate_fetch_tasks (some pairCollate) [(1, 1), (2, 2)]
        = Sum.inl (pairCollate pairs).2 :=
  c5_pair_collate (fun i => some i) pairCollate [1, 2] [(1, 1), (2, 2)]
    (by unfold ValidCompletion; decide)

/-- Identity map-style source used in the C3 counterexample. -/
def idSourceMap : MapDataset Unit Nat :=
  ⟨fun i => .ok i, none, fun _ => .ok 0⟩

/-- Claim C3 fails on the code: at batch `[2, 0, 1]` over an identity source,
the concurrent fetcher with one worker returns the samples `[0, 1, 2]`, sorted
by position, while the Indexed Fetcher returns `[2, 0, 1]`, in batch order, so
the two results differ. -/
theorem c3_counterexample :
    async_fetch_one_worker (fun i => some i) (some pairCollate) [2, 0, 1]
      = Sum.inl [0, 1, 2] ∧
    (MapDataset.fetch idSourceMap true id (fun a => [a]) [2, 0, 1]).1
      = .ok [2, 0, 1] ∧
    ([0, 1, 2] : List Nat) ≠ [2, 0, 1] := by
  refine ⟨?_, rfl, by decide⟩
  simp [async_fetch_one_worker, initiate_fetch_tasks, asyncCollect, pairCollate,
    keyLe, List.mergeSort]

/-- Claim C3 amended: for a position batch sorted ascending and a source that
succeeds on every position, the concurrent fetcher with one worker and the
pair collator produces exactly the result of the Indexed Fetcher: both return
the samples of the batch positions, in batch order. -/
theorem c3_amended_sorted_equiv {α : Type} (g : Nat → α)
    (comp : List Nat → Except Unit α) (batch : List Nat)
    (hs : batch.Sorted (· ≤ ·)) :
    async_fetch_one_worker (fun i => some (g i)) (some pairCollate) batch
      = Sum.inl (batch.map g) ∧
    (MapDataset.fetch (⟨fun i => .ok (g i), none, comp⟩ : MapDataset Unit α)
        true id (fun a => [a]) batch).1 = .ok (batch.map g) := by
  constructor
  · have hcol : asyncCollect (fun i => some (g i)) batch
        = batch.map fun i => (i, g i) := by
      induction batch with
      | nil => rfl
      | cons i t ih =>
        simpa [asyncCollect, List.filterMap_cons] using ih hs.of_cons
    have hp : (batch.map fun i => (i, g i)).Pairwise
        fun x y => keyLe x y = true := by
      rw [List.pairwise_map]
      exact hs.imp fun hab => by simpa [keyLe] using hab
    simp [async_fetch_one_worker, initiate_fetch_tasks, hcol,
      List.mergeSort_of_sorted hp, pairCollate, List.map_map, Function.comp]
  · simp [MapDataset.fetch, fetch_each_ok, Except.map]

/-- Witness for the amended C3, at the ascending batch `[0, 2, 5]`. -/
theorem c3_amended_sorted_equiv_witness :
    async_fetch_one_worker (fun i => some i) (some pairCollate) [0, 2, 5]
      = Sum.inl [0, 2, 5] ∧
    (MapDataset.fetch
        (⟨fun i => .ok i, none, fun _ => .ok 0⟩ : MapDataset Unit Nat)
        true id (fun a => [a]) [0, 2, 5]).1 = .ok [0, 2, 5] :=
  c3_amended_sorted_equiv (fun i => i) (fun _ => .ok 0) [0, 2, 5] (by decide)

/-- Claim C4 fails on the code in the non-batched configuration: on a
single-item source with batching disabled, the second fetch call signals
exhaustion but leaves the sticky flag unset, and the third call — made after
exhaustion was already signaled — still interacts with the cursor: one `next`
call instead of none. -/
theorem c4_counterexample :
    (IterFetcher.fetch (⟨[Except.ok 0], false⟩ : IterFetcher Unit Nat) false
        false id (fun a => [a]) [0] = (.ok [0], ⟨[], false⟩, 1)) ∧
    (IterFetcher.fetch (⟨[], false⟩ : IterFetcher Unit Nat) false false id
        (fun a => [a]) [0] = (.error .exhausted, ⟨[], false⟩, 1)) ∧
    (IterFetcher.fetch (⟨[], false⟩ : IterFetcher Unit Nat) false false id
        (fun a => [a]) [0]).2.2 = 1 ∧ (1 : Nat) ≠ 0 :=
  ⟨rfl, rfl, rfl, by decide⟩

/-- Claim C4 amended: with batching enabled, once a fetch call on a non-empty
position batch signals exhaustion the fetcher is in the sticky ended state,
and from that state every subsequent fetch call, in any configuration, signals
exhaustion immediately, with the state unchanged and zero interactions with
the cursor of the source. -/
theorem c4_amended_sticky {ε α β : Type} (s : IterFetcher ε α)
    (drop_last : Bool) (collate_fn : List α → β) (collate_one : α → β)
    (idx : List Nat) (r : IterFetcher ε α) (c : Nat) (hne : idx ≠ [])
    (h : IterFetcher.fetch s true drop_last collate_fn collate_one idx
      = (.error .exhausted, r, c)) :
    r.ended = true ∧
    ∀ (auto drop : Bool) (cf : List α → β) (co : α → β) (idx2 : List Nat),
      IterFetcher.fetch r auto drop cf co idx2 = (.error .exhausted, r, 0) := by
  have hre : r.ended = true := by
    by_cases hse : s.ended
    · unfold IterFetcher.fetch at h
      rw [if_pos hse] at h
      simp only [Prod.mk.injEq] at h
      rw [← h.2.1]
      exact hse
    · unfold IterFetcher.fetch at h
      rw [if_neg hse, if_pos rfl] at h
      split at h
      · simp at h
      · rename_i d rest c0 hp
        split at h
        · rename_i hcond
          exfalso
          have hdl : d.length = idx.length :=
            pull_ok_length idx.length s.dataset_iter rest d c0 hp
          rcases hcond with h0 | ⟨-, hltc⟩
          · exact hne (List.length_eq_zero.mp (hdl ▸ h0))
          · exact absurd (hdl ▸ hltc) (lt_irrefl idx.length)
        · simp at h
      · split at h
        · simp only [Prod.mk.injEq] at h
          rw [← h.2.1]
        · simp at h
  refine ⟨hre, fun auto drop cf co idx2 => ?_⟩
  simp [IterFetcher.fetch, hre]

/-- Witness for the amended C4: an empty source, batch `[0]`. -/
theorem c4_amended_sticky_witness :
    ((⟨[], true⟩ : IterFetcher Unit Nat).ended = true) ∧
    ∀ (auto drop : Bool) (cf : List Nat → List Nat) (co : Nat → List Nat)
        (idx2 : List Nat),
      IterFetcher.fetch (⟨[], true⟩ : IterFetcher Unit Nat) auto drop cf co
          idx2 = (.error .exhausted, ⟨[], true⟩, 0) :=
  c4_amended_sticky ⟨[], false⟩ false id (fun a => [a]) [0] ⟨[], true⟩ 1
    (by decide) rfl

/-- Claim C9: in the synchronous fetchers a source error propagates to the
caller unmodified. Indexed Fetcher: with per-position retrieval, the first
position whose retrieval raises `e` makes the fetch return exactly `e`, right
after the calls for the preceding positions. Sequential Fetcher: with batching
enabled, a cursor whose productions begin with good items and then raise `e`
makes the fetch return the propagated `src e`, which is distinct from the
`exhausted` signal. -/
theorem c9_error_propagation {ε α β : Type} (g : Nat → α) (e : ε)
    (drop_last : Bool) (collate_fn : List α → β) (collate_one : α → β) :
    (∀ (gi : Nat → Except ε α) (gc : List Nat → Except ε α) (pre : List Nat)
        (j : Nat) (post : List Nat),
      (∀ i ∈ pre, gi i = .ok (g i)) → gi j = .error e →
      MapDataset.fetch (⟨gi, none, gc⟩ : MapDataset ε α) true collate_fn
          collate_one (pre ++ j :: post)
        = (.error e, pre.map DSCall.single ++ [DSCall.single j])) ∧
    (∀ (okpre : List α) (rest : List (Except ε α)) (idx : List Nat),
      okpre.length < idx.length →
      (IterFetcher.fetch
          (⟨okpre.map Except.ok ++ Except.error e :: rest, false⟩ :
            IterFetcher ε α) true drop_last collate_fn collate_one idx).1
        = .error (.src e) ∧
      (FetchSignal.src e ≠ (FetchSignal.exhausted : FetchSignal ε))) := by
  constructor
  · intro gi gc pre j post hpre hj
    simp [MapDataset.fetch,
      fetch_each_reaches_error gi g e j pre post hpre hj, Except.map]
  · intro okpre rest idx hlt
    refine ⟨?_, fun hcon => FetchSignal.noConfusion hcon⟩
    simp [IterFetcher.fetch, pull_reaches_error e rest okpre idx.length hlt]

/-- Retrieval map where position 1 raises and every other position returns
itself as its sample. -/
def gi9 : Nat → Except Unit Nat := fun i => if i = 1 then .error () else .ok i

/-- Witness for C9: batch `[0, 1, 2]` with position 1 failing for the Indexed
Fetcher, and a cursor raising after one good item for the Sequential
Fetcher. -/
theorem c9_error_propagation_witness :
    (MapDataset.fetch (⟨gi9, none, fun _ => Except.ok 0⟩ : MapDataset Unit Nat)
        true id (fun a => [a]) ([0] ++ 1 :: [2])
      = (.error (), [0].map DSCall.single ++ [DSCall.single 1])) ∧
    ((IterFetcher.fetch
        (⟨[0].map Except.ok ++ Except.error () :: [], false⟩ :
          IterFetcher Unit Nat) true false id (fun a => [a]) [7, 7]).1
      = .error (.src ()) ∧
    (FetchSignal.src () ≠ (FetchSignal.exhausted : FetchSignal Unit))) :=
  ⟨(c9_error_propagation (fun i => i) () false id (fun a => [a])).1 gi9
      (fun _ => Except.ok 0) [0] 1 [2]
      (by intro i hi; simp at hi; subst hi; rfl) rfl,
    (c9_error_propagation (fun i => i) () false id (fun a => [a])).2 [0] []
      [7, 7] (by decide)⟩

end Fetch
